import Mathlib

/-! Verification of the `apftool-rs` firmware unpacker (`src/unpack.rs`).

The Rust module is shallowly embedded: files are byte lists (`List Nat`,
each byte `< 256` on real inputs), file-system writes are recorded as an
ordered list of `(path, content)` pairs, and the three observable ways a
call can end — returning a value, returning an `anyhow` error, or
panicking (slice-index out of bounds and the explicit `panic!`) — are the
three constructors of `Outcome`.  Console output (`println!`/`eprintln!`)
is not modelled except for the one length-mismatch warning, which is
recorded as a flag because the spec talks about it.

The crate-root items used by `unpack.rs` (`RKAF_SIGNATURE`,
`RKFW_SIGNATURE`, `RKAFP_MAGIC`, `UpdateHeader` and its `from_bytes`
overlay) are declared outside the sources given under `src/`; they are
modelled from the spec where needed, and each such definition says so in
its doc comment.
-/

/-- Errors returned through `anyhow::Result` by `unpack.rs`.  Each
constructor corresponds to one `Err`/`?` site in the source; the original
message strings are noted at each constructor. -/
inductive RErr : Type
  /-- Raised by the dispatcher for an unknown 4-byte signature — carries the
  offending 4 bytes. -/
  | unknownSignature (sig : List Nat)
  /-- Raised as Invalid date when `NaiveDate::from_ymd_opt` fails. -/
  | invalidDate
  /-- Raised as Invalid time when `NaiveTime::from_hms_opt` fails. -/
  | invalidTime
  /-- Raised when the magic bytes are not valid UTF-8 and the propagated
  `from_utf8` decode fails. -/
  | magicNotUtf8
  /-- Raised as Invalid header magic id. -/
  | invalidHeaderMagic
  /-- Raised as Insufficient length in container image file, from a
  short read in `extract_file`. -/
  | insufficientLength
  /-- Raised for an I/O error propagated with `?` (e.g. `read_exact` on a file
  shorter than the header record). -/
  | ioError
deriving DecidableEq, Repr

/-- How a call ends: normal return, `anyhow` error, or panic (slice
indexing out of bounds, or the explicit `panic!` for the missing embedded
RKAF image). -/
inductive Outcome (α : Type) : Type
  | ok (a : α)
  | err (e : RErr)
  | panic (msg : String)
deriving DecidableEq, Repr

/-- Message used for every out-of-bounds slice/index panic in the model
(Rust's own panic message spells out the indices; only the fact of the
panic matters here). -/
def idxMsg : String := "index out of bounds"

/-- The file system as observed by the program: the files fully or
partially written so far, in creation order, with their byte contents. -/
abbrev FS := List (String × List Nat)

/-- Little-endian `u32::from_le_bytes` on four bytes taken at offset `i` of the buffer,
as in `get_u32_le` (`unpack.rs` line 296).  Callers guard the bounds; on
real (in-bounds) calls `getD` never uses its default. -/
def getU32le (buf : List Nat) (i : Nat) : Nat :=
  buf.getD i 0 + buf.getD (i + 1) 0 * 256 + buf.getD (i + 2) 0 * 65536 +
    buf.getD (i + 3) 0 * 16777216

/-- Model of `CStr::from_bytes_until_nul`, at byte level: the bytes strictly before
the first null byte, or `none` when the field holds no null byte at all
(the Rust call returns `Err(FromBytesUntilNulError)` in that case).  The
subsequent `to_string_lossy` step is kept at byte level: all equality
comparisons the program makes against ASCII literals ("SELF", "RESERVED",
the magic) are byte-exact because UTF-8 encoding is injective and lossy
replacement characters never produce those ASCII strings. -/
def decodeUntilNul : List Nat → Option (List Nat)
  | [] => none
  | b :: rest => if b = 0 then some [] else (decodeUntilNul rest).map (b :: ·)

/-- The bytes of the ASCII string `"unknown"`, the fallback used for an
undecodable manufacturer/model field. -/
def unknownBytes : List Nat := [117, 110, 107, 110, 111, 119, 110]

/-- The bytes of `"SELF"`. -/
def selfBytes : List Nat := [83, 69, 76, 70]

/-- The bytes of `"RESERVED"`. -/
def reservedBytes : List Nat := [82, 69, 83, 69, 82, 86, 69, 68]

/-- Modelled from the spec: `RKAF_SIGNATURE` is declared in the crate
root, outside `src/`.  The spec's package-format signature is the 4-byte
marker `"RKAF"`, the same bytes `unpack_rkfw` checks at the embedded
image (line 145 of `unpack.rs`). -/
def rkafSigBytes : List Nat := [82, 75, 65, 70]

/-- Modelled from the spec: `RKFW_SIGNATURE` is declared in the crate
root, outside `src/`.  The spec's wrapper-format signature is the 4-byte
marker `"RKFW"`. -/
def rkfwSigBytes : List Nat := [82, 75, 70, 87]

/-- Modelled from the spec: `RKAFP_MAGIC` is declared in the crate root,
outside `src/`.  Per the spec the package-format header's magic tag is
the package-format marker itself, i.e. `"RKAF"`. -/
def rkafpMagicBytes : List Nat := rkafSigBytes

/-- Is a continuation byte (`0x80..=0xBF`)? -/
def utf8Cont (b : Nat) : Bool := 128 ≤ b && b ≤ 191

/-- Validity of `std::str::from_utf8` on a byte list: the standard UTF-8
well-formedness automaton (shortest-form, surrogate-free, `≤ U+10FFFF`). -/
def validUtf8 : List Nat → Bool
  | [] => true
  | b :: rest =>
    if b ≤ 127 then validUtf8 rest
    else if 194 ≤ b && b ≤ 223 then
      match rest with
      | c1 :: r => utf8Cont c1 && validUtf8 r
      | [] => false
    else if b = 224 then
      match rest with
      | c1 :: c2 :: r => (160 ≤ c1 && c1 ≤ 191) && utf8Cont c2 && validUtf8 r
      | _ => false
    else if (225 ≤ b && b ≤ 236) || b = 238 || b = 239 then
      match rest with
      | c1 :: c2 :: r => utf8Cont c1 && utf8Cont c2 && validUtf8 r
      | _ => false
    else if b = 237 then
      match rest with
      | c1 :: c2 :: r => (128 ≤ c1 && c1 ≤ 159) && utf8Cont c2 && validUtf8 r
      | _ => false
    else if b = 240 then
      match rest with
      | c1 :: c2 :: c3 :: r =>
          (144 ≤ c1 && c1 ≤ 191) && utf8Cont c2 && utf8Cont c3 && validUtf8 r
      | _ => false
    else if 241 ≤ b && b ≤ 243 then
      match rest with
      | c1 :: c2 :: c3 :: r =>
          utf8Cont c1 && utf8Cont c2 && utf8Cont c3 && validUtf8 r
      | _ => false
    else if b = 244 then
      match rest with
      | c1 :: c2 :: c3 :: r =>
          (128 ≤ c1 && c1 ≤ 143) && utf8Cont c2 && utf8Cont c3 && validUtf8 r
      | _ => false
    else false

/-- One pass of the `extract_file` read loop (`unpack.rs` lines 181–194):
at position `pos` of the source with `rem` bytes still owed, read
`min rem 16384` bytes (a `File::read` of `n` bytes at `pos` yields
`min n (len - pos)` bytes), fail when the read is short, otherwise write
the chunk and continue.  Returns the bytes written to the destination
file so far together with the outcome. -/
def extractLoop (src : List Nat) (pos rem : Nat) : List Nat × Outcome Unit :=
  if h : rem = 0 then ([], .ok ())
  else
    let readLen := min rem 16384
    let chunk := (src.drop pos).take readLen
    if chunk.length ≠ readLen then ([], .err .insufficientLength)
    else
      let rec' := extractLoop src (pos + readLen) (rem - readLen)
      (chunk ++ rec'.1, rec'.2)
termination_by rem
decreasing_by
  have h1 : 0 < rem := Nat.pos_of_ne_zero h
  have h2 : 0 < min rem 16384 := lt_min h1 (by norm_num)
  omega

/-- Model of `extract_file` (`unpack.rs` lines 174–197): seek to `offset`, copy
exactly `len` bytes to the destination in chunks of at most 16 KiB.  The
destination file is created before the loop, so on a short read it exists
with the bytes written so far (first component). -/
def extractFile (src : List Nat) (offset len : Nat) : List Nat × Outcome Unit :=
  extractLoop src offset len

/-- Leap year in the proleptic Gregorian calendar (chrono's rule). -/
def isLeapYear (y : Nat) : Bool := (y % 4 = 0 && y % 100 ≠ 0) || y % 400 = 0

/-- Days in a month of the proleptic Gregorian calendar; `0` for a month
outside `1..=12`. -/
def daysInMonth (y m : Nat) : Nat :=
  match m with
  | 1 => 31 | 2 => if isLeapYear y then 29 else 28 | 3 => 31 | 4 => 30
  | 5 => 31 | 6 => 30 | 7 => 31 | 8 => 31 | 9 => 30 | 10 => 31
  | 11 => 30 | 12 => 31 | _ => 0

/-- Success condition of `chrono::NaiveDate::from_ymd_opt` for the year
range reachable here (the year is a `u16`, well inside chrono's limits,
so only month and day can be rejected). -/
def validYmd (y m d : Nat) : Bool :=
  1 ≤ m && m ≤ 12 && 1 ≤ d && d ≤ daysInMonth y m

/-- Success condition of `chrono::NaiveTime::from_hms_opt`. -/
def validHms (hh mi ss : Nat) : Bool := hh < 24 && mi < 60 && ss < 60

/-- Days from 1970-01-01 to the given proleptic Gregorian date (may be
negative); the civil-from-days inverse of chrono's internal day count. -/
def daysFromCivil (y m d : Nat) : Int :=
  let y' : Int := (y : Int) - (if m ≤ 2 then 1 else 0)
  let era : Int := Int.fdiv y' 400
  let yoe : Int := y' - era * 400
  let mp : Int := if 2 < m then (m : Int) - 3 else (m : Int) + 9
  let doy : Int := Int.fdiv (153 * mp + 2) 5 + (d : Int) - 1
  let doe : Int := yoe * 365 + Int.fdiv yoe 4 - Int.fdiv yoe 100 + doy
  era * 146097 + doe - 719468

/-- Model of `NaiveDateTime::and_utc().timestamp()`: signed seconds since the Unix
epoch of the given calendar date-time taken as UTC. -/
def unixTimestamp (y m d hh mi ss : Nat) : Int :=
  daysFromCivil y m d * 86400 + hh * 3600 + mi * 60 + ss

/-- Record `RkfwInfo` (`unpack.rs` lines 8–19); `u32`/`u8` fields become `Nat`
(each is assembled from at most four bytes, so no wrap can occur), the
`i64` timestamp becomes `Int`. -/
structure RkfwInfo : Type where
  version : String
  code : Nat
  timestamp : Int
  chip_family : String
  chip_code : Nat
  boot_offset : Nat
  boot_size : Nat
  update_offset : Nat
  update_size : Nat
deriving DecidableEq, Repr

/-- The fixed chip-code table of `unpack_rkfw` (lines 103–117); `none`
for an unmapped code (the code then reports and falls back to
`"unknown"`). -/
def chipName (c : Nat) : Option String :=
  match c with
  | 0x50 => some "RK29xx" | 0x60 => some "RK30xx" | 0x70 => some "RK31xx"
  | 0x80 => some "RK32xx" | 0x41 => some "RK3368" | 0x36 => some "RK3326"
  | 0x32 => some "RK3562" | 0x38 => some "RK3566" | 0x30 => some "PX30"
  | _ => none

/-- Field accessors of the RKFW header, named for the statements about
`unpack_rkfw`.  Year is the 16-bit little-endian value at `0x0e`. -/
def rkfwYear (buf : List Nat) : Nat := buf.getD 0x0f 0 * 256 + buf.getD 0x0e 0

/-- Month byte at `0x10`. -/
def rkfwMonth (buf : List Nat) : Nat := buf.getD 0x10 0

/-- Day byte at `0x11`. -/
def rkfwDay (buf : List Nat) : Nat := buf.getD 0x11 0

/-- Hour byte at `0x12`. -/
def rkfwHour (buf : List Nat) : Nat := buf.getD 0x12 0

/-- Minute byte at `0x13`. -/
def rkfwMinute (buf : List Nat) : Nat := buf.getD 0x13 0

/-- Second byte at `0x14`. -/
def rkfwSecond (buf : List Nat) : Nat := buf.getD 0x14 0

/-- Bootloader-region offset, 32-bit little-endian at `0x19`. -/
def rkfwBootOffset (buf : List Nat) : Nat := getU32le buf 0x19

/-- Bootloader-region size, 32-bit little-endian at `0x1d`. -/
def rkfwBootSize (buf : List Nat) : Nat := getU32le buf 0x1d

/-- Embedded-package offset, 32-bit little-endian at `0x21`. -/
def rkfwUpdateOffset (buf : List Nat) : Nat := getU32le buf 0x21

/-- Embedded-package size, 32-bit little-endian at `0x25`. -/
def rkfwUpdateSize (buf : List Nat) : Nat := getU32le buf 0x25

/-- The tail of `unpack_rkfw` after the date-time check (`unpack.rs`
lines 102–171): chip classification, bootloader-region extraction into
`BOOT`, embedded-package signature check and extraction into
`embedded-update.img`.  `version`, `code` and `ts` are the header fields
already derived by the lines before.  Every byte access is guarded by the
bound its Rust slice/index demands, in source order; accesses between two
guards write no files, so grouping them per step is observationally
exact. -/
def rkfwRest (buf : List Nat) (version : String) (code : Nat) (ts : Int) :
    FS × Outcome RkfwInfo :=
  if buf.length < 22 then ([], .panic idxMsg)
  else if buf.length < 29 then ([], .panic idxMsg)
  else if buf.length < 33 then ([], .panic idxMsg)
  else if buf.length < rkfwBootOffset buf + rkfwBootSize buf then
    ([], .panic idxMsg)
  else if buf.length < 37 then
    ([("BOOT", (buf.drop (rkfwBootOffset buf)).take (rkfwBootSize buf))],
      .panic idxMsg)
  else if buf.length < 41 then
    ([("BOOT", (buf.drop (rkfwBootOffset buf)).take (rkfwBootSize buf))],
      .panic idxMsg)
  else if buf.length < rkfwUpdateOffset buf + 4 then
    ([("BOOT", (buf.drop (rkfwBootOffset buf)).take (rkfwBootSize buf))],
      .panic idxMsg)
  else if (buf.drop (rkfwUpdateOffset buf)).take 4 ≠ rkafSigBytes then
    ([("BOOT", (buf.drop (rkfwBootOffset buf)).take (rkfwBootSize buf))],
      .panic "cannot find embedded RKAF update.img")
  else if buf.length < rkfwUpdateOffset buf + rkfwUpdateSize buf then
    ([("BOOT", (buf.drop (rkfwBootOffset buf)).take (rkfwBootSize buf))],
      .panic idxMsg)
  else
    ([("BOOT", (buf.drop (rkfwBootOffset buf)).take (rkfwBootSize buf)),
        ("embedded-update.img",
          (buf.drop (rkfwUpdateOffset buf)).take (rkfwUpdateSize buf))],
      .ok ⟨version, code, ts, (chipName (buf.getD 0x15 0)).getD "unknown",
        buf.getD 0x15 0, rkfwBootOffset buf, rkfwBootSize buf,
        rkfwUpdateOffset buf, rkfwUpdateSize buf⟩)

/-- Version string of the RKFW header, `format!` of the bytes at
offsets 9, 8 and the 16-bit little-endian value from bytes 7–6 (field
order intentionally non-monotonic with offset, as in the source). -/
def rkfwVersionString (buf : List Nat) : String :=
  toString (buf.getD 9 0) ++ "." ++ toString (buf.getD 8 0) ++ "." ++
    toString (buf.getD 7 0 * 256 + buf.getD 6 0)

/-- Model of `unpack_rkfw` (`unpack.rs` lines 67–172) on the in-memory buffer.
Returns the files written (in order) and the outcome.  Bounds for the
version/code/date byte accesses come first, in source order, so a buffer
too short for them panics exactly where the Rust code's first failing
access sits; after the date-time validation the work continues in
`rkfwRest`.  Directory creation and console output are not modelled. -/
def unpack_rkfw (buf : List Nat) : FS × Outcome RkfwInfo :=
  if buf.length < 10 then ([], .panic idxMsg)
  else if buf.length < 14 then ([], .panic idxMsg)
  else if buf.length < 21 then ([], .panic idxMsg)
  else if ¬ validYmd (rkfwYear buf) (rkfwMonth buf) (rkfwDay buf) then
    ([], .err .invalidDate)
  else if ¬ validHms (rkfwHour buf) (rkfwMinute buf) (rkfwSecond buf) then
    ([], .err .invalidTime)
  else
    rkfwRest buf (rkfwVersionString buf) (getU32le buf 0x0a)
      (unixTimestamp (rkfwYear buf) (rkfwMonth buf) (rkfwDay buf)
        (rkfwHour buf) (rkfwMinute buf) (rkfwSecond buf))

/-- Record `PartitionInfo` (`unpack.rs` lines 21–30).  The two text fields are
kept as the raw bytes the lossy UTF-8 decode receives (see
`decodeUntilNul`); the five `u32` geometry fields become `Nat`. -/
structure PartitionInfo : Type where
  name : List Nat
  path : List Nat
  flash_size : Nat
  flash_offset : Nat
  part_offset : Nat
  padded_size : Nat
  part_byte_count : Nat
deriving DecidableEq, Repr

/-- Record `RkafInfo` (`unpack.rs` lines 32–38), text fields at byte level. -/
structure RkafInfo : Type where
  manufacturer : List Nat
  model : List Nat
  filesize : Nat
  partitions : List PartitionInfo
deriving DecidableEq, Repr

/-- One entry of `UpdateHeader.parts`.  Modelled from the spec: the
`UpdateHeader` record type is declared in the crate root, outside `src/`;
per the spec each partition-table entry holds a name field, a full-path
field (both fixed-width null-terminated byte arrays) and the five
geometry fields in this order. -/
structure PartEntry : Type where
  name : List Nat
  full_path : List Nat
  flash_size : Nat
  flash_offset : Nat
  part_offset : Nat
  padded_size : Nat
  part_byte_count : Nat
deriving DecidableEq, Repr

/-- Modelled from the spec: the packed `UpdateHeader` record (declared in
the crate root, outside `src/`) holds a 4-byte magic tag, a 32-bit length
field, fixed-width manufacturer/model byte arrays, a partition count and
a fixed-size partition table.  `unpack_rkafp` receives the record already
overlaid from the file's first `size_of::<UpdateHeader>()` bytes, since
the byte-level overlay (`from_bytes`) is outside `src/`. -/
structure UpdateHeader : Type where
  magic : List Nat
  length : Nat
  manufacturer : List Nat
  model : List Nat
  num_parts : Nat
  parts : List PartEntry
deriving DecidableEq, Repr

/-- One line of the `partition-metadata.txt` manifest (`unpack.rs` lines
254–264), as its seven fields; the comma/hex rendering of the line is
invertible from these fields and not modelled. -/
structure ManifestLine : Type where
  name : List Nat
  path : List Nat
  flash_size : Nat
  flash_offset : Nat
  part_offset : Nat
  padded_size : Nat
  part_byte_count : Nat
deriving DecidableEq, Repr

/-- The partition loop of `unpack_rkafp` (`unpack.rs` lines 233–284),
processing entries `i, i+1, ..., num_parts-1` where `entries` is
`header.parts[i..]` and `n` the number of iterations left.  Yields the
manifest lines written, the `partitions` vector, the partition files
written, and the outcome; indexing past the fixed-size `parts` array
panics; an entry whose `full_path` holds no null byte is skipped
silently; `"SELF"`/`"RESERVED"` entries are skipped; otherwise the
manifest line is written first, then the partition is extracted (so a
failed extraction leaves the line in the manifest but aborts the loop). -/
def rkafpLoop (file : List Nat) (entries : List PartEntry) (n : Nat) :
    List ManifestLine × List PartitionInfo × List (List Nat × List Nat) ×
      Outcome Unit :=
  match n, entries with
  | 0, _ => ([], [], [], .ok ())
  | _ + 1, [] => ([], [], [], .panic idxMsg)
  | n + 1, part :: rest =>
    match decodeUntilNul part.full_path with
    | none => rkafpLoop file rest n
    | some pathBytes =>
      if pathBytes = selfBytes ∨ pathBytes = reservedBytes then
        rkafpLoop file rest n
      else
        let nameBytes := (decodeUntilNul part.name).getD []
        let line : ManifestLine := ⟨nameBytes, pathBytes, part.flash_size,
          part.flash_offset, part.part_offset, part.padded_size,
          part.part_byte_count⟩
        let pinfo : PartitionInfo := ⟨nameBytes, pathBytes, part.flash_size,
          part.flash_offset, part.part_offset, part.padded_size,
          part.part_byte_count⟩
        let ext := extractFile file part.part_offset part.part_byte_count
        match ext.2 with
        | .ok _ =>
          let r := rkafpLoop file rest n
          (line :: r.1, pinfo :: r.2.1, (pathBytes, ext.1) :: r.2.2.1, r.2.2.2)
        | .err e => ([line], [pinfo], [(pathBytes, ext.1)], .err e)
        | .panic m => ([line], [pinfo], [(pathBytes, ext.1)], .panic m)

/-- Result of `unpack_rkafp`: partition files written (with the file
name's destination-relative path as raw bytes), the manifest file's lines
(`none` when `partition-metadata.txt` was never created), the
length-mismatch warning flag (`eprintln!` at line 214), and the outcome. -/
structure RkafpResult : Type where
  files : FS
  manifest : Option (List ManifestLine)
  warning : Bool
  outcome : Outcome RkafInfo
deriving DecidableEq, Repr

/-- Partition file paths are raw bytes in the loop; the dispatcher-level
`FS` uses strings, so loop files are kept in a byte-keyed list and
injected here by decimal rendering of each byte (injective, so equality
of recorded files mirrors equality of paths). -/
def bytesKey (bs : List Nat) : String := toString bs

/-- Model of `unpack_rkafp` (`unpack.rs` lines 199–294) given the overlaid header
record and the full file contents (`filesize` is `file.length`).  The
magic bytes must decode as UTF-8 (`?` at line 206) and equal
`RKAFP_MAGIC`; the length comparison `filesize - 4 != header.length`
(`u64`, and `filesize ≥ 4` whenever the header was actually read from the
file) only sets the warning; manufacturer/model fall back to `"unknown"`
when not null-terminated; then the manifest file is created and the
partition loop runs. -/
def unpack_rkafp (header : UpdateHeader) (file : List Nat) : RkafpResult :=
  if ¬ validUtf8 header.magic then ⟨[], none, false, .err .magicNotUtf8⟩
  else if header.magic ≠ rkafpMagicBytes then
    ⟨[], none, false, .err .invalidHeaderMagic⟩
  else
    let warning := decide (file.length - 4 ≠ header.length)
    let manufacturer := (decodeUntilNul header.manufacturer).getD unknownBytes
    let model := (decodeUntilNul header.model).getD unknownBytes
    let r := rkafpLoop file header.parts header.num_parts
    let files : FS := r.2.2.1.map (fun p => (bytesKey p.1, p.2))
    match r.2.2.2 with
    | .ok _ => ⟨files, some r.1, warning,
        .ok ⟨manufacturer, model, file.length, r.2.1⟩⟩
    | .err e => ⟨files, some r.1, warning, .err e⟩
    | .panic m => ⟨files, some r.1, warning, .panic m⟩

/-- Union `UnpackResult` (`unpack.rs` lines 40–44). -/
inductive UnpackResult : Type
  | Rkfw (info : RkfwInfo)
  | Rkaf (info : RkafInfo)
deriving DecidableEq, Repr

/-- Functorial action on outcomes (wrapping a parser's result into
`UnpackResult` at lines 54–59). -/
def Outcome.map {α β : Type} (f : α → β) : Outcome α → Outcome β
  | .ok a => .ok (f a)
  | .err e => .err e
  | .panic m => .panic m

/-- Result of the top-level `unpack_file`. -/
structure UnpackFileResult : Type where
  files : FS
  manifest : Option (List ManifestLine)
  warning : Bool
  outcome : Outcome UnpackResult
deriving DecidableEq, Repr

/-- Model of `unpack_file` (`unpack.rs` lines 46–65): read the whole file, slice
bytes `[0,4)` (a panic when the file is shorter than 4 bytes), and
dispatch on the signature.  `parseHeader` stands for the re-read of the
header record inside `unpack_rkafp` (`read_exact` + `from_bytes`, whose
layout lives outside `src/`): `none` models `read_exact` failing on a
file shorter than the header record. -/
def unpack_file (parseHeader : List Nat → Option UpdateHeader)
    (file : List Nat) : UnpackFileResult :=
  if file.length < 4 then ⟨[], none, false, .panic idxMsg⟩
  else
    let sig := file.take 4
    if sig = rkafSigBytes then
      match parseHeader file with
      | none => ⟨[], none, false, .err .ioError⟩
      | some h =>
        let r := unpack_rkafp h file
        ⟨r.files, r.manifest, r.warning, r.outcome.map .Rkaf⟩
    else if sig = rkfwSigBytes then
      let r := unpack_rkfw file
      ⟨r.1, none, false, r.2.map .Rkfw⟩
    else ⟨[], none, false, .err (.unknownSignature sig)⟩

/-- The spec's (§3) reading of a null-terminated fixed-width text field:
the bytes up to (but not including) the first null byte, or the whole
field when no null is present.  Stated from the spec's words only, to be
compared against the code's `decodeUntilNul`. -/
def specDecodeField (f : List Nat) : List Nat := f.takeWhile (· ≠ 0)

theorem decodeUntilNul_characterisation (f : List Nat) :
    decodeUntilNul f =
      if 0 ∈ f then some (f.takeWhile (· ≠ 0)) else none := by
  induction f with
  | nil => simp [decodeUntilNul]
  | cons b rest ih =>
    by_cases hb : b = 0
    · subst hb; simp [decodeUntilNul]
    · have hb' : ¬ (0 : Nat) = b := fun hh => hb hh.symm
      simp only [decodeUntilNul, if_neg hb, ih, List.mem_cons,
        List.takeWhile_cons]
      by_cases hr : 0 ∈ rest
      · simp [hr, hb, hb']
      · simp [hr, hb, hb']

theorem extractLoop_ok (src : List Nat) (pos rem : Nat)
    (h : pos + rem ≤ src.length) :
    extractLoop src pos rem = ((src.drop pos).take rem, .ok ()) := by
  induction rem using Nat.strong_induction_on generalizing pos with
  | _ rem ih =>
    rw [extractLoop]
    by_cases h0 : rem = 0
    · subst h0; simp
    · simp only [h0, dite_false]
      have hmin : min rem 16384 ≤ rem := Nat.min_le_left _ _
      have hpos : 0 < min rem 16384 :=
        lt_min (Nat.pos_of_ne_zero h0) (by norm_num)
      have hlenchunk : ((src.drop pos).take (min rem 16384)).length
          = min rem 16384 := by
        simp only [List.length_take, List.length_drop]
        omega
      rw [if_neg (by omega)]
      rw [ih (rem - min rem 16384) (by omega) (pos + min rem 16384) (by omega)]
      refine Prod.ext ?_ rfl
      show (src.drop pos).take (min rem 16384) ++
        (src.drop (pos + min rem 16384)).take (rem - min rem 16384)
        = (src.drop pos).take rem
      conv_rhs =>
        rw [show rem = min rem 16384 + (rem - min rem 16384) from by omega]
      rw [List.take_add, List.drop_drop]

theorem extractLoop_err (src : List Nat) (pos rem : Nat)
    (h : src.length < pos + rem) (hrem : 0 < rem) :
    (extractLoop src pos rem).2 = .err .insufficientLength := by
  induction rem using Nat.strong_induction_on generalizing pos with
  | _ rem ih =>
    rw [extractLoop]
    have h0 : rem ≠ 0 := Nat.pos_iff_ne_zero.mp hrem
    simp only [h0, dite_false]
    have hmin : min rem 16384 ≤ rem := Nat.min_le_left _ _
    have hpos : 0 < min rem 16384 :=
      lt_min (Nat.pos_of_ne_zero h0) (by norm_num)
    have hlenchunk : ((src.drop pos).take (min rem 16384)).length
        = min (min rem 16384) (src.length - pos) := by
      simp [List.length_take, List.length_drop]
    by_cases hshort : min (min rem 16384) (src.length - pos) = min rem 16384
    · rw [if_neg (by omega)]
      have hfull : min rem 16384 ≤ src.length - pos := by omega
      have : 0 < rem - min rem 16384 := by omega
      rw [ih (rem - min rem 16384) (by omega) (pos + min rem 16384) (by omega) this]
    · rw [if_pos (by omega)]

/-- C4.  For every call of the region extractor with offset, length and
destination: when every chunked read (chunks of at most 16 KiB) is
full-length — which for a regular file means the requested range lies
within it — the call succeeds and the destination holds exactly `len`
bytes, the source bytes at `[offset, offset+len)`; when some read comes
back short (the range leaves the file and at least one read happens), the
call fails with the insufficient-length error. -/
theorem extract_file_exact (src : List Nat) (offset len : Nat) :
    (offset + len ≤ src.length →
      extractFile src offset len = ((src.drop offset).take len, .ok ()) ∧
      ((src.drop offset).take len).length = len) ∧
    (src.length < offset + len → 0 < len →
      (extractFile src offset len).2 = .err .insufficientLength) := by
  constructor
  · intro hin
    refine ⟨extractLoop_ok src offset len hin, ?_⟩
    simp only [List.length_take, List.length_drop]
    omega
  · intro hout hpos
    exact extractLoop_err src offset len hout hpos

/-- Witness for `extract_file_exact`: an in-range extraction of 2 bytes
at offset 1 from a 4-byte source, and an out-of-range request of 5 bytes
at offset 1 from a 2-byte source. -/
theorem extract_file_exact_witness :
    (extractFile [1, 2, 3, 4] 1 2 = ([2, 3], .ok ()) ∧
      ((([1, 2, 3, 4] : List Nat).drop 1).take 2).length = 2) ∧
    (extractFile [1, 2] 1 5).2 = .err .insufficientLength :=
  ⟨(extract_file_exact [1, 2, 3, 4] 1 2).1 (by decide),
    (extract_file_exact [1, 2] 1 5).2 (by decide) (by decide)⟩

/-- C6 (counterexample).  The claim — the decoded text of each string
field is the bytes up to the first null byte, or the whole field when no
null byte is present — fails on the code: `CStr::from_bytes_until_nul`
errors out on a field with no null byte, so the decode yields nothing
(and the callers fall back) instead of the whole field.  Concretely the
one-byte field `[65]` ("A", unterminated) decodes to `none`, not to
`[65]` as the claim requires. -/
theorem decode_until_nul_claim_refuted :
    ¬ (∀ f : List Nat, decodeUntilNul f = some (specDecodeField f)) := by
  intro hcl
  have h := hcl [65]
  simp [decodeUntilNul, specDecodeField] at h

/-- C6 (amended).  When the field contains a null byte, the decoded text
is exactly the bytes before the first null; when it contains none, the
decode fails (`none`), and the parser's fallbacks apply: manufacturer and
model fall back to `"unknown"`, the partition name to the empty string
(that is how `unpack_rkafp` uses `decodeUntilNul` with `getD`). -/
theorem decode_until_nul_amended (f : List Nat) :
    decodeUntilNul f =
      (if 0 ∈ f then some (specDecodeField f) else none) ∧
    (decodeUntilNul f).getD unknownBytes =
      (if 0 ∈ f then specDecodeField f else unknownBytes) ∧
    (decodeUntilNul f).getD [] =
      (if 0 ∈ f then specDecodeField f else []) := by
  have h := decodeUntilNul_characterisation f
  refine ⟨h, ?_, ?_⟩ <;> rw [h] <;> by_cases h0 : 0 ∈ f <;>
    simp [h0, specDecodeField]

/-- C1.  The dispatcher inspects bytes `[0,4)` of the input (given at
least 4 bytes, cf. the safety claim): the package signature delegates to
the package parser, the wrapper signature to the wrapper parser, and any
other 4-byte value returns the unrecognized-format error carrying those
4 bytes, with no file written (and no manifest created). -/
theorem unpack_file_dispatch (parseHeader : List Nat → Option UpdateHeader)
    (file : List Nat) (h4 : 4 ≤ file.length) :
    (file.take 4 = rkafSigBytes →
      unpack_file parseHeader file =
        match parseHeader file with
        | none => ⟨[], none, false, .err .ioError⟩
        | some h =>
          ⟨(unpack_rkafp h file).files, (unpack_rkafp h file).manifest,
            (unpack_rkafp h file).warning,
            (unpack_rkafp h file).outcome.map .Rkaf⟩) ∧
    (file.take 4 = rkfwSigBytes →
      unpack_file parseHeader file =
        ⟨(unpack_rkfw file).1, none, false, (unpack_rkfw file).2.map .Rkfw⟩) ∧
    (file.take 4 ≠ rkafSigBytes → file.take 4 ≠ rkfwSigBytes →
      unpack_file parseHeader file =
        ⟨[], none, false, .err (.unknownSignature (file.take 4))⟩) := by
  refine ⟨?_, ?_, ?_⟩
  · intro hs
    unfold unpack_file
    rw [if_neg (by omega), if_pos hs]
  · intro hs
    unfold unpack_file
    rw [if_neg (by omega), if_neg (by rw [hs]; decide), if_pos hs]
  · intro h1 h2
    unfold unpack_file
    rw [if_neg (by omega), if_neg h1, if_neg h2]

/-- Witness for `unpack_file_dispatch`: the file `[1,2,3,4]` matches
neither signature, so the call returns the unrecognized-signature error
carrying `[1,2,3,4]` and records no file and no manifest. -/
theorem unpack_file_dispatch_witness :
    unpack_file (fun _ => none) [1, 2, 3, 4] =
      ⟨[], none, false, .err (.unknownSignature [1, 2, 3, 4])⟩ :=
  (unpack_file_dispatch (fun _ => none) [1, 2, 3, 4] (by decide)).2.2
    (by decide) (by decide)

/-- A MalformedHeader condition in the spec's taxonomy (§7): a bad magic
tag or an undecodable required text field. -/
def isMalformedHeader : RErr → Prop := fun e =>
  e = .magicNotUtf8 ∨ e = .invalidHeaderMagic

/-- C5.  A package header whose magic tag differs from the expected
marker makes the parser fail with a MalformedHeader error before any
partition is extracted: no file is written and the manifest file is never
created.  Whenever the corrupted magic still decodes as text the error is
exactly the "invalid header magic" one; a magic that is not valid UTF-8
fails at the `from_utf8` decode instead (still MalformedHeader in the
spec's taxonomy, §7). -/
theorem rkafp_bad_magic (h : UpdateHeader) (file : List Nat)
    (hm : h.magic ≠ rkafpMagicBytes) :
    (unpack_rkafp h file).files = [] ∧
    (unpack_rkafp h file).manifest = none ∧
    (∃ e, (unpack_rkafp h file).outcome = .err e ∧ isMalformedHeader e) ∧
    (validUtf8 h.magic →
      (unpack_rkafp h file).outcome = .err .invalidHeaderMagic) := by
  unfold unpack_rkafp
  by_cases hu : validUtf8 h.magic
  · rw [if_neg (by simp [hu]), if_pos hm]
    exact ⟨rfl, rfl, ⟨.invalidHeaderMagic, rfl, Or.inr rfl⟩, fun _ => rfl⟩
  · rw [if_pos (by simp [hu])]
    exact ⟨rfl, rfl, ⟨.magicNotUtf8, rfl, Or.inl rfl⟩, fun hc => absurd hc hu⟩

/-- Witness for `rkafp_bad_magic`: an all-null magic tag (valid UTF-8,
but not the marker) fails with the invalid-header-magic error, writing
nothing. -/
theorem rkafp_bad_magic_witness :
    (unpack_rkafp ⟨[0, 0, 0, 0], 0, [0], [0], 0, []⟩ []).files = [] ∧
    (unpack_rkafp ⟨[0, 0, 0, 0], 0, [0], [0], 0, []⟩ []).manifest = none ∧
    (∃ e, (unpack_rkafp ⟨[0, 0, 0, 0], 0, [0], [0], 0, []⟩ []).outcome
        = .err e ∧ isMalformedHeader e) ∧
    (validUtf8 [0, 0, 0, 0] →
      (unpack_rkafp ⟨[0, 0, 0, 0], 0, [0], [0], 0, []⟩ []).outcome
        = .err .invalidHeaderMagic) :=
  rkafp_bad_magic ⟨[0, 0, 0, 0], 0, [0], [0], 0, []⟩ [] (by decide)

/-- C8.  The header's 32-bit length field never influences the parse
beyond the warning: replacing it by any value (in particular one
mismatching `file_size - 4`) leaves the files written, the manifest and
the outcome identical — extraction proceeds to completion exactly as in
the matching case.  When the magic tag is the expected marker, the
warning flag is set precisely on `file_size - 4 ≠ length`. -/
theorem rkafp_length_mismatch_warning_only (h : UpdateHeader)
    (file : List Nat) (l : Nat) :
    (unpack_rkafp {h with length := l} file).files
        = (unpack_rkafp h file).files ∧
    (unpack_rkafp {h with length := l} file).manifest
        = (unpack_rkafp h file).manifest ∧
    (unpack_rkafp {h with length := l} file).outcome
        = (unpack_rkafp h file).outcome ∧
    (h.magic = rkafpMagicBytes →
      (unpack_rkafp h file).warning = decide (file.length - 4 ≠ h.length)) := by
  obtain ⟨magic, len0, manu, modl, np, parts⟩ := h
  by_cases hu : validUtf8 magic
  · by_cases hm : magic = rkafpMagicBytes
    · subst hm
      simp only [unpack_rkafp]
      rcases hout : (rkafpLoop file parts np).2.2.2 with a | e | m <;>
        simp [hout, show validUtf8 rkafpMagicBytes = true from by decide]
    · simp [unpack_rkafp, hu, hm]
  · simp only [unpack_rkafp]
    simp [hu]
    intro hm'
    subst hm'
    exact absurd (by decide : validUtf8 rkafpMagicBytes = true) hu

/-- Witness for `rkafp_length_mismatch_warning_only`: a 6-byte file whose
header declares length 7 (a mismatch, since `6 - 4 ≠ 7`) sets the warning
flag, and replacing the length field by 2 (a match) leaves the outcome
unchanged. -/
theorem rkafp_length_mismatch_warning_only_witness :
    (unpack_rkafp ⟨rkafpMagicBytes, 7, [0], [0], 0, []⟩
        [1, 2, 3, 4, 5, 6]).warning
      = decide (([1, 2, 3, 4, 5, 6] : List Nat).length - 4 ≠ 7) ∧
    (unpack_rkafp
        {(⟨rkafpMagicBytes, 7, [0], [0], 0, []⟩ : UpdateHeader) with
          length := 2} [1, 2, 3, 4, 5, 6]).outcome
      = (unpack_rkafp ⟨rkafpMagicBytes, 7, [0], [0], 0, []⟩
          [1, 2, 3, 4, 5, 6]).outcome :=
  ⟨(rkafp_length_mismatch_warning_only ⟨rkafpMagicBytes, 7, [0], [0], 0, []⟩
      [1, 2, 3, 4, 5, 6] 2).2.2.2 rfl,
    (rkafp_length_mismatch_warning_only ⟨rkafpMagicBytes, 7, [0], [0], 0, []⟩
      [1, 2, 3, 4, 5, 6] 2).2.2.1⟩

/-- An entry the partition loop processes (writes a manifest line,
returns a `PartitionInfo`, extracts a file): its full-path field decodes
(has a null byte) and the decode is neither `"SELF"` nor `"RESERVED"`. -/
def keepEntry (p : PartEntry) : Bool :=
  match decodeUntilNul p.full_path with
  | none => false
  | some pb => !decide (pb = selfBytes ∨ pb = reservedBytes)

/-- An entry skipped as a structural placeholder: full path decodes to
exactly `"SELF"` or `"RESERVED"`. -/
def entrySkippedPlaceholder (p : PartEntry) : Bool :=
  decide (decodeUntilNul p.full_path = some selfBytes ∨
    decodeUntilNul p.full_path = some reservedBytes)

/-- An entry skipped silently because its full-path field holds no null
byte (`CStr::from_bytes_until_nul` fails, the `if let` does not match). -/
def entrySkippedNoNul (p : PartEntry) : Bool :=
  decide (decodeUntilNul p.full_path = none)

/-- The manifest line the loop writes for a processed entry. -/
def entryLine (p : PartEntry) : ManifestLine :=
  ⟨(decodeUntilNul p.name).getD [], (decodeUntilNul p.full_path).getD [],
    p.flash_size, p.flash_offset, p.part_offset, p.padded_size,
    p.part_byte_count⟩

/-- The `PartitionInfo` the loop records for a processed entry. -/
def entryInfo (p : PartEntry) : PartitionInfo :=
  ⟨(decodeUntilNul p.name).getD [], (decodeUntilNul p.full_path).getD [],
    p.flash_size, p.flash_offset, p.part_offset, p.padded_size,
    p.part_byte_count⟩

/-- Every partition-table entry is exactly one of: processed, skipped as
a placeholder, or skipped for an unterminated full-path field. -/
theorem entry_partition (l : List PartEntry) :
    (l.filter keepEntry).length + (l.filter entrySkippedPlaceholder).length
      + (l.filter entrySkippedNoNul).length = l.length := by
  induction l with
  | nil => simp
  | cons p rest ih =>
    rcases hd : decodeUntilNul p.full_path with _ | pb
    · have hk : keepEntry p = false := by simp [keepEntry, hd]
      have hp : entrySkippedPlaceholder p = false := by
        simp [entrySkippedPlaceholder, hd]
      have hn : entrySkippedNoNul p = true := by simp [entrySkippedNoNul, hd]
      simp [List.filter_cons, hk, hp, hn]
      omega
    · by_cases hsr : pb = selfBytes ∨ pb = reservedBytes
      · have hk : keepEntry p = false := by simp [keepEntry, hd, hsr]
        have hp : entrySkippedPlaceholder p = true := by
          rcases hsr with hsr | hsr <;> subst hsr <;>
            simp [entrySkippedPlaceholder, hd]
        have hn : entrySkippedNoNul p = false := by
          simp [entrySkippedNoNul, hd]
        simp [List.filter_cons, hk, hp, hn]
        omega
      · have hk : keepEntry p = true := by simp [keepEntry, hd, hsr]
        have hp : entrySkippedPlaceholder p = false := by
          simp only [entrySkippedPlaceholder, hd, Option.some.injEq,
            decide_eq_false_iff_not]
          exact hsr
        have hn : entrySkippedNoNul p = false := by
          simp [entrySkippedNoNul, hd]
        simp [List.filter_cons, hk, hp, hn]
        omega

/-- When the partition loop completes normally, the manifest lines and
the `partitions` vector are exactly the processed entries (in table
order), mapped to their line/record forms, and the partition count did
not exceed the table's capacity. -/
theorem rkafpLoop_ok_spec (file : List Nat) (n : Nat) :
    ∀ entries : List PartEntry,
      (rkafpLoop file entries n).2.2.2 = .ok () →
      (rkafpLoop file entries n).1
          = ((entries.take n).filter keepEntry).map entryLine ∧
      (rkafpLoop file entries n).2.1
          = ((entries.take n).filter keepEntry).map entryInfo ∧
      n ≤ entries.length := by
  induction n with
  | zero => intro entries _; simp [rkafpLoop]
  | succ n ih =>
    intro entries hok
    match entries with
    | [] => simp [rkafpLoop] at hok
    | part :: rest =>
      rcases hd : decodeUntilNul part.full_path with _ | pb
      · have hk : keepEntry part = false := by simp [keepEntry, hd]
        simp only [rkafpLoop, hd] at hok ⊢
        obtain ⟨h1, h2, h3⟩ := ih rest hok
        simp [List.take_succ_cons, List.filter_cons, hk, h1, h2]
        omega
      · by_cases hsr : pb = selfBytes ∨ pb = reservedBytes
        · have hk : keepEntry part = false := by simp [keepEntry, hd, hsr]
          simp only [rkafpLoop, hd, if_pos hsr] at hok ⊢
          obtain ⟨h1, h2, h3⟩ := ih rest hok
          simp [List.take_succ_cons, List.filter_cons, hk, h1, h2]
          omega
        · have hk : keepEntry part = true := by simp [keepEntry, hd, hsr]
          simp only [rkafpLoop, hd, if_neg hsr] at hok ⊢
          rcases hext : (extractFile file part.part_offset
              part.part_byte_count).2 with a | e | m
          · simp only [hext] at hok ⊢
            obtain ⟨h1, h2, h3⟩ := ih rest hok
            refine ⟨?_, ?_, by simpa using Nat.succ_le_succ h3⟩ <;>
              simp [List.take_succ_cons, List.filter_cons, hk, h1, h2,
                entryLine, entryInfo, hd]
          · simp [hext] at hok
          · simp [hext] at hok

/-- C2 (amended).  For every package-format input that parses to
completion, the manifest lines and the returned `PartitionInfo` records
are exactly the processed entries of the header table, in table order;
their common count is the partition count minus the `"SELF"`/`"RESERVED"`
placeholder entries minus the entries whose full-path field holds no null
byte (these are skipped silently by the `if let` around
`CStr::from_bytes_until_nul`, which the claim does not account for). -/
theorem rkafp_manifest_count (h : UpdateHeader) (file : List Nat)
    (lines : List ManifestLine) (info : RkafInfo)
    (hman : (unpack_rkafp h file).manifest = some lines)
    (hok : (unpack_rkafp h file).outcome = .ok info) :
    lines = ((h.parts.take h.num_parts).filter keepEntry).map entryLine ∧
    info.partitions
        = ((h.parts.take h.num_parts).filter keepEntry).map entryInfo ∧
    info.partitions.length = lines.length ∧
    lines.length = h.num_parts
      - ((h.parts.take h.num_parts).filter entrySkippedPlaceholder).length
      - ((h.parts.take h.num_parts).filter entrySkippedNoNul).length := by
  obtain ⟨magic, len0, manu, modl, np, parts⟩ := h
  simp only [unpack_rkafp] at hman hok
  by_cases hu : validUtf8 magic
  · by_cases hm : magic = rkafpMagicBytes
    · subst hm
      have hv : validUtf8 rkafpMagicBytes = true := by decide
      rw [if_neg (by simp [hv]), if_neg (by simp)] at hman hok
      rcases hout : (rkafpLoop file parts np).2.2.2 with a | e | m
      · cases a
        simp only [hout] at hman hok
        dsimp only at hman hok ⊢
        simp only [Option.some.injEq] at hman
        simp only [Outcome.ok.injEq] at hok
        obtain ⟨h1, h2, h3⟩ := rkafpLoop_ok_spec file np parts hout
        have hlen : (parts.take np).length = np := by
          simp only [List.length_take]
          omega
        have hpart := entry_partition (parts.take np)
        refine ⟨?_, ?_, ?_, ?_⟩
        · rw [← hman, h1]
        · rw [← hok]
          dsimp only
          exact h2
        · rw [← hman, ← hok]
          dsimp only
          rw [h1, h2]
          simp
        · rw [← hman, h1]
          simp only [List.length_map]
          omega
      · simp only [hout] at hok
        exact absurd hok (by simp)
      · simp only [hout] at hok
        exact absurd hok (by simp)
    · rw [if_neg (by simp [hu]), if_pos hm] at hok
      exact absurd hok (by simp)
  · rw [if_pos (by simp [hu])] at hok
    exact absurd hok (by simp)

/-- Witness for `rkafp_manifest_count`: a header with one partition-table
entry, the `"SELF"` placeholder, parses to completion with an empty
manifest — `1` entry minus `1` placeholder minus `0` unterminated. -/
theorem rkafp_manifest_count_witness :
    ([] : List ManifestLine).length = (1 : Nat)
      - ((([⟨[0], [83, 69, 76, 70, 0], 0, 0, 0, 0, 0⟩] :
          List PartEntry).take 1).filter entrySkippedPlaceholder).length
      - ((([⟨[0], [83, 69, 76, 70, 0], 0, 0, 0, 0, 0⟩] :
          List PartEntry).take 1).filter entrySkippedNoNul).length :=
  (rkafp_manifest_count
    ⟨rkafpMagicBytes, 0, [0], [0], 1, [⟨[0], [83, 69, 76, 70, 0], 0, 0, 0, 0, 0⟩]⟩
    [] [] ⟨[], [], 0, []⟩ (by decide) (by decide)).2.2.2

/-- C2 (counterexample).  The claim — manifest lines = partition count
minus the `"SELF"`/`"RESERVED"` entries (decoding per the spec's §3
convention) — is false on the code: a single entry whose full-path field
`[65]` has no null byte decodes (per the spec) to `"A"`, which is neither
placeholder, so the claim predicts one manifest line; the code's
`if let Ok(..) = CStr::from_bytes_until_nul(..)` silently skips the
entry, and the completed parse writes zero manifest lines. -/
theorem rkafp_manifest_count_claim_refuted :
    ¬ (∀ (h : UpdateHeader) (file : List Nat) (lines : List ManifestLine)
        (info : RkafInfo),
        (unpack_rkafp h file).manifest = some lines →
        (unpack_rkafp h file).outcome = .ok info →
        lines.length = h.num_parts
          - ((h.parts.take h.num_parts).filter (fun p =>
              decide (specDecodeField p.full_path = selfBytes ∨
                specDecodeField p.full_path = reservedBytes))).length) := by
  intro hcl
  have hinst := hcl
    ⟨rkafpMagicBytes, 0, [0], [0], 1, [⟨[0], [65], 0, 0, 0, 0, 0⟩]⟩
    [] [] ⟨[], [], 0, []⟩ (by decide) (by decide)
  exact absurd hinst (by decide)

/-- Shape of the post-date-check work: it never returns an `anyhow`
error (all its failures are panics), and on a normal return the result
record carries the given `version`/`code`/`ts` and the header's region
geometry, both regions lie within the buffer, and the files written are
`BOOT` followed by `embedded-update.img` with the regions' bytes. -/
theorem rkfwRest_outcomes (buf : List Nat) (v : String) (c : Nat) (ts : Int) :
    (∀ e : RErr, (rkfwRest buf v c ts).2 ≠ .err e) ∧
    (∀ info : RkfwInfo, (rkfwRest buf v c ts).2 = .ok info →
      info = ⟨v, c, ts, (chipName (buf.getD 0x15 0)).getD "unknown",
        buf.getD 0x15 0, rkfwBootOffset buf, rkfwBootSize buf,
        rkfwUpdateOffset buf, rkfwUpdateSize buf⟩ ∧
      (rkfwRest buf v c ts).1
        = [("BOOT", (buf.drop (rkfwBootOffset buf)).take (rkfwBootSize buf)),
            ("embedded-update.img",
              (buf.drop (rkfwUpdateOffset buf)).take (rkfwUpdateSize buf))] ∧
      rkfwBootOffset buf + rkfwBootSize buf ≤ buf.length ∧
      rkfwUpdateOffset buf + rkfwUpdateSize buf ≤ buf.length) := by
  unfold rkfwRest
  by_cases h1 : buf.length < 22
  · rw [if_pos h1]
    exact ⟨fun e hx => by simp at hx, fun info hx => by simp at hx⟩
  rw [if_neg h1]
  by_cases h2 : buf.length < 29
  · rw [if_pos h2]
    exact ⟨fun e hx => by simp at hx, fun info hx => by simp at hx⟩
  rw [if_neg h2]
  by_cases h3 : buf.length < 33
  · rw [if_pos h3]
    exact ⟨fun e hx => by simp at hx, fun info hx => by simp at hx⟩
  rw [if_neg h3]
  by_cases h4 : buf.length < rkfwBootOffset buf + rkfwBootSize buf
  · rw [if_pos h4]
    exact ⟨fun e hx => by simp at hx, fun info hx => by simp at hx⟩
  rw [if_neg h4]
  by_cases h5 : buf.length < 37
  · rw [if_pos h5]
    exact ⟨fun e hx => by simp at hx, fun info hx => by simp at hx⟩
  rw [if_neg h5]
  by_cases h6 : buf.length < 41
  · rw [if_pos h6]
    exact ⟨fun e hx => by simp at hx, fun info hx => by simp at hx⟩
  rw [if_neg h6]
  by_cases h7 : buf.length < rkfwUpdateOffset buf + 4
  · rw [if_pos h7]
    exact ⟨fun e hx => by simp at hx, fun info hx => by simp at hx⟩
  rw [if_neg h7]
  by_cases h8 : (buf.drop (rkfwUpdateOffset buf)).take 4 ≠ rkafSigBytes
  · rw [if_pos h8]
    exact ⟨fun e hx => by simp at hx, fun info hx => by simp at hx⟩
  rw [if_neg h8]
  by_cases h9 : buf.length < rkfwUpdateOffset buf + rkfwUpdateSize buf
  · rw [if_pos h9]
    exact ⟨fun e hx => by simp at hx, fun info hx => by simp at hx⟩
  rw [if_neg h9]
  refine ⟨fun e hx => by simp at hx, fun info hx => ?_⟩
  simp only [Outcome.ok.injEq] at hx
  subst hx
  exact ⟨rfl, rfl, by omega, by omega⟩

/-- C7.  Given a buffer long enough to hold the six timestamp fields, the
wrapper parser fails with the invalid-date/invalid-time error exactly
when the fields (16-bit little-endian year at `0x0e`, month, day, hour,
minute, second bytes at `0x10`–`0x14`) do not form a valid calendar
date-time (chrono's `from_ymd_opt`/`from_hms_opt` checks); and whenever
the parse returns, the reported timestamp is the signed Unix timestamp of
those fields read as a UTC date-time. -/
theorem rkfw_timestamp_check (buf : List Nat) (hlen : 21 ≤ buf.length) :
    (((unpack_rkfw buf).2 = .err .invalidDate ∨
      (unpack_rkfw buf).2 = .err .invalidTime) ↔
      ¬ (validYmd (rkfwYear buf) (rkfwMonth buf) (rkfwDay buf) ∧
        validHms (rkfwHour buf) (rkfwMinute buf) (rkfwSecond buf))) ∧
    (∀ info : RkfwInfo, (unpack_rkfw buf).2 = .ok info →
      info.timestamp = unixTimestamp (rkfwYear buf) (rkfwMonth buf)
        (rkfwDay buf) (rkfwHour buf) (rkfwMinute buf) (rkfwSecond buf)) := by
  unfold unpack_rkfw
  rw [if_neg (by omega), if_neg (by omega), if_neg (by omega)]
  by_cases hd : validYmd (rkfwYear buf) (rkfwMonth buf) (rkfwDay buf)
  · by_cases ht : validHms (rkfwHour buf) (rkfwMinute buf) (rkfwSecond buf)
    · rw [if_neg (by simp [hd]), if_neg (by simp [ht])]
      constructor
      · constructor
        · intro hcon
          exfalso
          rcases hcon with hcon | hcon <;>
            exact (rkfwRest_outcomes buf _ _ _).1 _ hcon
        · intro hcon
          exact absurd ⟨hd, ht⟩ hcon
      · intro info hok
        obtain ⟨hinfo, -⟩ := (rkfwRest_outcomes buf _ _ _).2 info hok
        rw [hinfo]
    · rw [if_neg (by simp [hd]), if_pos (by simp [ht])]
      refine ⟨by simp [hd, ht], by simp⟩
  · rw [if_pos (by simp [hd])]
    refine ⟨by simp [hd], by simp⟩

/-- Witness for `rkfw_timestamp_check`: a 21-byte buffer with month and
day bytes 1 and every other field 0 — the calendar date-time 0000-01-01
00:00:00, which is valid, so the outcome is not a date/time error. -/
theorem rkfw_timestamp_check_witness :
    (((unpack_rkfw ((List.replicate 21 0).set 16 1 |>.set 17 1)).2
        = .err .invalidDate ∨
      (unpack_rkfw ((List.replicate 21 0).set 16 1 |>.set 17 1)).2
        = .err .invalidTime) ↔
      ¬ (validYmd (rkfwYear ((List.replicate 21 0).set 16 1 |>.set 17 1))
          (rkfwMonth ((List.replicate 21 0).set 16 1 |>.set 17 1))
          (rkfwDay ((List.replicate 21 0).set 16 1 |>.set 17 1)) ∧
        validHms (rkfwHour ((List.replicate 21 0).set 16 1 |>.set 17 1))
          (rkfwMinute ((List.replicate 21 0).set 16 1 |>.set 17 1))
          (rkfwSecond ((List.replicate 21 0).set 16 1 |>.set 17 1)))) ∧
    (∀ info : RkfwInfo,
      (unpack_rkfw ((List.replicate 21 0).set 16 1 |>.set 17 1)).2
          = .ok info →
      info.timestamp
        = unixTimestamp
            (rkfwYear ((List.replicate 21 0).set 16 1 |>.set 17 1))
            (rkfwMonth ((List.replicate 21 0).set 16 1 |>.set 17 1))
            (rkfwDay ((List.replicate 21 0).set 16 1 |>.set 17 1))
            (rkfwHour ((List.replicate 21 0).set 16 1 |>.set 17 1))
            (rkfwMinute ((List.replicate 21 0).set 16 1 |>.set 17 1))
            (rkfwSecond ((List.replicate 21 0).set 16 1 |>.set 17 1))) :=
  rkfw_timestamp_check ((List.replicate 21 0).set 16 1 |>.set 17 1)
    (by decide)

/-- C3.  For a wrapper input whose header fields parse (valid date-time,
in-bounds bootloader region) but whose 4 bytes at the embedded-package
offset are not the package signature, the parser dies fatally with the
missing-embedded-package panic, and at that point the BOOT file has
already been written with the full bootloader region's bytes (and no
content check was applied to it). -/
theorem rkfw_missing_embedded_package (buf : List Nat)
    (hlen : 41 ≤ buf.length)
    (hd : validYmd (rkfwYear buf) (rkfwMonth buf) (rkfwDay buf))
    (ht : validHms (rkfwHour buf) (rkfwMinute buf) (rkfwSecond buf))
    (hboot : rkfwBootOffset buf + rkfwBootSize buf ≤ buf.length)
    (hupd : rkfwUpdateOffset buf + 4 ≤ buf.length)
    (hsig : (buf.drop (rkfwUpdateOffset buf)).take 4 ≠ rkafSigBytes) :
    unpack_rkfw buf =
      ([("BOOT", (buf.drop (rkfwBootOffset buf)).take (rkfwBootSize buf))],
        .panic "cannot find embedded RKAF update.img") := by
  unfold unpack_rkfw rkfwRest
  rw [if_neg (by omega), if_neg (by omega), if_neg (by omega),
    if_neg (by simp [hd]), if_neg (by simp [ht]),
    if_neg (by omega), if_neg (by omega), if_neg (by omega),
    if_neg (by omega), if_neg (by omega), if_neg (by omega),
    if_neg (by omega), if_pos hsig]

/-- Witness for `rkfw_missing_embedded_package`: 41 bytes, all zero
except month/day set to 1 — date 0000-01-01 is valid, both regions are
empty/in bounds, and the 4 bytes at embedded-package offset 0 are zeros,
not the signature: the parse panics after writing an empty BOOT file. -/
theorem rkfw_missing_embedded_package_witness :
    unpack_rkfw ((List.replicate 41 0).set 16 1 |>.set 17 1) =
      ([("BOOT", [])], .panic "cannot find embedded RKAF update.img") :=
  (rkfw_missing_embedded_package ((List.replicate 41 0).set 16 1 |>.set 17 1)
    (by decide) (by decide) (by decide) (by decide) (by decide)
    (by decide)).trans (by decide)

/-- C10.  The dispatcher is only total on files of at least 4 bytes: a
shorter file panics on the `[0,4)` slice instead of returning an error;
likewise the wrapper parser panics on slice indexing when the
bootloader region or the embedded-package region extends past the end of
the buffer (with the BOOT file already written in the latter case),
rather than returning a truncated-region error. -/
theorem unpack_panics_on_out_of_range :
    (∀ (parseHeader : List Nat → Option UpdateHeader) (file : List Nat),
      file.length < 4 →
      unpack_file parseHeader file = ⟨[], none, false, .panic idxMsg⟩) ∧
    (∀ buf : List Nat, 33 ≤ buf.length →
      validYmd (rkfwYear buf) (rkfwMonth buf) (rkfwDay buf) →
      validHms (rkfwHour buf) (rkfwMinute buf) (rkfwSecond buf) →
      buf.length < rkfwBootOffset buf + rkfwBootSize buf →
      unpack_rkfw buf = ([], .panic idxMsg)) ∧
    (∀ buf : List Nat, 41 ≤ buf.length →
      validYmd (rkfwYear buf) (rkfwMonth buf) (rkfwDay buf) →
      validHms (rkfwHour buf) (rkfwMinute buf) (rkfwSecond buf) →
      rkfwBootOffset buf + rkfwBootSize buf ≤ buf.length →
      (buf.drop (rkfwUpdateOffset buf)).take 4 = rkafSigBytes →
      buf.length < rkfwUpdateOffset buf + rkfwUpdateSize buf →
      unpack_rkfw buf =
        ([("BOOT", (buf.drop (rkfwBootOffset buf)).take (rkfwBootSize buf))],
          .panic idxMsg)) := by
  refine ⟨?_, ?_, ?_⟩
  · intro parseHeader file h
    unfold unpack_file
    rw [if_pos h]
  · intro buf hlen hd ht hboot
    unfold unpack_rkfw rkfwRest
    rw [if_neg (by omega), if_neg (by omega), if_neg (by omega),
      if_neg (by simp [hd]), if_neg (by simp [ht]),
      if_neg (by omega), if_neg (by omega), if_neg (by omega), if_pos hboot]
  · intro buf hlen hd ht hboot hsig hupd
    have hlen4 : rkfwUpdateOffset buf + 4 ≤ buf.length := by
      have hc := congrArg List.length hsig
      simp only [List.length_take, List.length_drop, rkafSigBytes,
        List.length_cons, List.length_nil] at hc
      omega
    unfold unpack_rkfw rkfwRest
    rw [if_neg (by omega), if_neg (by omega), if_neg (by omega),
      if_neg (by simp [hd]), if_neg (by simp [ht]),
      if_neg (by omega), if_neg (by omega), if_neg (by omega),
      if_neg (by omega), if_neg (by omega), if_neg (by omega),
      if_neg (by omega), if_neg (not_not_intro hsig), if_pos hupd]

/-- Witness for `unpack_panics_on_out_of_range`: a 3-byte file panics in
the dispatcher; a 33-byte wrapper whose bootloader size byte is 255
panics on the bootloader slice; a 41-byte wrapper starting with the
package signature at embedded offset 0 but update-size byte 255 panics on
the embedded-region slice after writing BOOT. -/
theorem unpack_panics_on_out_of_range_witness :
    unpack_file (fun _ => none) [0, 0, 0]
        = ⟨[], none, false, .panic idxMsg⟩ ∧
    unpack_rkfw ((List.replicate 33 0).set 16 1 |>.set 17 1 |>.set 29 255)
        = ([], .panic idxMsg) ∧
    unpack_rkfw (((82 :: 75 :: 65 :: 70 :: List.replicate 37 0).set 16 1
          |>.set 17 1 |>.set 37 255))
        = ([("BOOT", [])], .panic idxMsg) :=
  ⟨unpack_panics_on_out_of_range.1 (fun _ => none) [0, 0, 0] (by decide),
    unpack_panics_on_out_of_range.2.1
      ((List.replicate 33 0).set 16 1 |>.set 17 1 |>.set 29 255)
      (by decide) (by decide) (by decide) (by decide),
    (unpack_panics_on_out_of_range.2.2
      (((82 :: 75 :: 65 :: 70 :: List.replicate 37 0).set 16 1
        |>.set 17 1 |>.set 37 255))
      (by decide) (by decide) (by decide) (by decide) (by decide)
      (by decide)).trans (by decide)⟩

/-- Sanity anchors for the calendar model: the epoch, the day before it,
the leap-day arithmetic of a century year, and a full timestamp on a
recent leap day. -/
theorem calendar_model_checks :
    daysFromCivil 1970 1 1 = 0 ∧ daysFromCivil 1969 12 31 = -1 ∧
    daysFromCivil 2000 3 1 = 11017 ∧
    unixTimestamp 2024 2 29 12 30 5 = 1709209805 := by
  refine ⟨by decide, by decide, by decide, by decide⟩

/-- The spec's round-trip construction: write `src` back into a buffer
`dst` at byte offset `off` (leaving the rest of `dst` unchanged). -/
def writeAt (dst : List Nat) (off : Nat) (src : List Nat) : List Nat :=
  dst.take off ++ src ++ dst.drop (off + src.length)

theorem writeAt_length (dst src : List Nat) (off : Nat)
    (h : off + src.length ≤ dst.length) :
    (writeAt dst off src).length = dst.length := by
  simp only [writeAt, List.length_append, List.length_take, List.length_drop]
  omega

theorem writeAt_getD (dst src : List Nat) (off i : Nat)
    (h : off + src.length ≤ dst.length) :
    (writeAt dst off src).getD i 0 =
      if off ≤ i ∧ i < off + src.length then src.getD (i - off) 0
      else dst.getD i 0 := by
  have htl : (dst.take off).length = off := by
    simp only [List.length_take]
    omega
  rw [writeAt, List.getD_eq_getElem?_getD, List.append_assoc]
  by_cases h1 : i < off
  · rw [List.getElem?_append_left (by omega : i < (dst.take off).length),
      List.getElem?_take_of_lt h1, ← List.getD_eq_getElem?_getD,
      if_neg (by omega)]
  · rw [List.getElem?_append_right (by omega : (dst.take off).length ≤ i), htl]
    by_cases h2 : i - off < src.length
    · rw [List.getElem?_append_left h2, ← List.getD_eq_getElem?_getD,
        if_pos ⟨by omega, by omega⟩]
    · rw [List.getElem?_append_right (by omega : src.length ≤ i - off),
        List.getElem?_drop, ← List.getD_eq_getElem?_getD, if_neg (by omega)]
      congr 1
      omega

theorem slice_getD (l : List Nat) (off sz k : Nat) (hk : k < sz) :
    ((l.drop off).take sz).getD k 0 = l.getD (off + k) 0 := by
  rw [List.getD_eq_getElem?_getD, List.getElem?_take_of_lt hk,
    List.getElem?_drop, ← List.getD_eq_getElem?_getD]

/-- C9.  For a wrapper input that parses successfully, writing the
extracted BOOT bytes back at `boot_offset` and the extracted
embedded-update.img bytes at `update_offset` into any buffer of the
original file's size reproduces the original bytes on both regions
`[boot_offset, boot_offset+boot_size)` and
`[update_offset, update_offset+update_size)` exactly. -/
theorem rkfw_roundtrip (buf bb ub : List Nat) (info : RkfwInfo)
    (hparse : unpack_rkfw buf
      = ([("BOOT", bb), ("embedded-update.img", ub)], .ok info))
    (base : List Nat) (hbase : base.length = buf.length) :
    (∀ i, info.boot_offset ≤ i → i < info.boot_offset + info.boot_size →
      (writeAt (writeAt base info.boot_offset bb)
        info.update_offset ub).getD i 0 = buf.getD i 0) ∧
    (∀ i, info.update_offset ≤ i → i < info.update_offset + info.update_size →
      (writeAt (writeAt base info.boot_offset bb)
        info.update_offset ub).getD i 0 = buf.getD i 0) := by
  unfold unpack_rkfw at hparse
  split_ifs at hparse <;> try (injection hparse with hA hB; injection hA)
  have hout : (rkfwRest buf (rkfwVersionString buf) (getU32le buf 0x0a)
      (unixTimestamp (rkfwYear buf) (rkfwMonth buf) (rkfwDay buf)
        (rkfwHour buf) (rkfwMinute buf) (rkfwSecond buf))).2 = .ok info := by
    rw [hparse]
  obtain ⟨hinfo, hfiles, hbootle, hupdle⟩ :=
    (rkfwRest_outcomes buf _ _ _).2 info hout
  have hfs := congrArg Prod.fst hparse
  rw [hfiles] at hfs
  simp only [List.cons.injEq, Prod.mk.injEq, and_true, true_and] at hfs
  obtain ⟨hbb, hub⟩ := hfs
  subst hbb
  subst hub
  subst hinfo
  dsimp only
  have hbblen : ((buf.drop (rkfwBootOffset buf)).take (rkfwBootSize buf)).length
      = rkfwBootSize buf := by
    simp only [List.length_take, List.length_drop]
    omega
  have hublen : ((buf.drop (rkfwUpdateOffset buf)).take
      (rkfwUpdateSize buf)).length = rkfwUpdateSize buf := by
    simp only [List.length_take, List.length_drop]
    omega
  have hw1len : (writeAt base (rkfwBootOffset buf)
      ((buf.drop (rkfwBootOffset buf)).take (rkfwBootSize buf))).length
      = buf.length := by
    rw [writeAt_length _ _ _ (by omega), hbase]
  constructor
  · intro i hi1 hi2
    rw [writeAt_getD _ _ _ _ (by omega)]
    by_cases hiu : rkfwUpdateOffset buf ≤ i ∧
        i < rkfwUpdateOffset buf +
          ((buf.drop (rkfwUpdateOffset buf)).take (rkfwUpdateSize buf)).length
    · rw [if_pos hiu, slice_getD _ _ _ _ (by omega)]
      congr 1
      omega
    · rw [if_neg hiu, writeAt_getD _ _ _ _ (by omega),
        if_pos ⟨hi1, by omega⟩, slice_getD _ _ _ _ (by omega)]
      congr 1
      omega
  · intro i hi1 hi2
    rw [writeAt_getD _ _ _ _ (by omega),
      if_pos ⟨hi1, by omega⟩, slice_getD _ _ _ _ (by omega)]
    congr 1
    omega

/-- Concrete wrapper buffer for the round-trip witness: 41 bytes, year
1970 (little-endian `0x07b2` at `0x0e`), month/day 1, bootloader region
`[0, 2)`, embedded-package region `[0, 4)` whose first 4 bytes are the
package signature. -/
def rkfwRoundtripBuf : List Nat :=
  (82 :: 75 :: 65 :: 70 :: List.replicate 37 0).set 14 178
    |>.set 15 7 |>.set 16 1 |>.set 17 1 |>.set 29 2 |>.set 37 4

/-- Witness for `rkfw_roundtrip`: parsing `rkfwRoundtripBuf` succeeds
with BOOT bytes `[82, 75]` (region `[0, 2)`) and embedded-update bytes
`[82, 75, 65, 70]` (region `[0, 4)`); writing both back into a 41-byte
buffer of sevens reproduces the original bytes on both regions. -/
theorem rkfw_roundtrip_witness :
    (∀ i, 0 ≤ i → i < 0 + 2 →
      (writeAt (writeAt (List.replicate 41 7) 0 [82, 75]) 0
        [82, 75, 65, 70]).getD i 0 = rkfwRoundtripBuf.getD i 0) ∧
    (∀ i, 0 ≤ i → i < 0 + 4 →
      (writeAt (writeAt (List.replicate 41 7) 0 [82, 75]) 0
        [82, 75, 65, 70]).getD i 0 = rkfwRoundtripBuf.getD i 0) :=
  rkfw_roundtrip rkfwRoundtripBuf [82, 75] [82, 75, 65, 70]
    ⟨"0.0.0", 0, 0, "unknown", 0, 0, 2, 0, 4⟩ (by decide)
    (List.replicate 41 7) (by decide)
